import Mathlib

/-!
Verification of `quotelessstrings.py`: a module that binds every undefined
identifier of the importing program to a string-like placeholder (`Name`),
whose operators render the applied operation as literal text instead of
computing it.

The embedding below translates the source into Lean:
* `Name` models the `Name` class (a `str` subclass); its single payload is
  its text.
* `Val` models the values a `Name` can meet as an operand: another token,
  a plain string, an integer, or a slice object; `strVal` is the host's
  plain string conversion `str(v)` used by the f-strings in the source.
* `lop`, `rop`, `cop` translate the three operator-factory decorators
  (src lines 12-54); the per-method definitions (`Name.add` for `__add__`
  and so on) are the decorated methods of the class body (src lines 57-161).
* `cop` receives the decoded currently-executing instruction of the caller
  (the Calling Context Snapshot) as an explicit argument and returns
  `Except`, mirroring the `assert` at src line 48.
* `findnames` and `populate` translate the scope-population pass
  (src lines 170-185); the importing module's namespaces appear as explicit
  arguments (builtin names, the global binding table, local names).
-/

/-- The `Name` class of src line 57: a string subclass whose only payload is
its text (`str(self)` is this text). -/
structure Name where
  text : String
deriving DecidableEq, Repr

/-- A host value a token can meet as operand, argument or subscript key:
another token, a plain string, an integer, or a slice object (the host turns
`a[1:2]` into a slice key before `__getitem__` sees it). -/
inductive Val where
  | tok : Name → Val
  | str : String → Val
  | int : Int → Val
  | slice : Option Int → Option Int → Option Int → Val
deriving DecidableEq, Repr

/-- Rendering of an optional slice bound: the host renders a missing bound
as `None`. -/
def strOptInt : Option Int → String
  | none => "None"
  | some n => toString n

/-- The host's plain string conversion `str(v)`, as used by the f-string
interpolations in the source: a token renders as its text, a plain string as
itself (no quotes), an integer in decimal, a slice as `slice(lo, hi, step)`. -/
def strVal : Val → String
  | .tok n => n.text
  | .str s => s
  | .int n => toString n
  | .slice lo hi st =>
      "slice(" ++ strOptInt lo ++ ", " ++ strOptInt hi ++ ", " ++ strOptInt st ++ ")"

/-- `lop` (src lines 12-18): left-side-centered operator factory; the
produced method returns a new token with text `{self}{operator}{other}`. -/
def lop (operator : String) (self : Name) (other : Val) : Name :=
  Name.mk (self.text ++ operator ++ strVal other)

/-- `rop` (src lines 20-26): right-side-centered operator factory; the
produced method returns a new token with text `{other}{operator}{self}`. -/
def rop (operator : String) (self : Name) (other : Val) : Name :=
  Name.mk (strVal other ++ operator ++ self.text)

/-- The decoded instruction of the direct caller at its current offset
(`instrs[frame.f_lasti//2]` in the source): its opcode name and the
comparison symbol it carries. -/
structure Instruction where
  opname : String
  argval : String
deriving DecidableEq, Repr

/-- `cop` (src lines 28-54): ordering-comparison factory. The produced
handler inspects the caller's currently executing instruction `lasti`:
it asserts `lasti.opname == 'COMPARE_OP'` (the `Except.error` branch is the
`AssertionError` of src line 48); if the instruction's symbol equals the
handler's nominal operator it renders `{self}{operator}{other}`, otherwise
the host flipped the operands before dispatch and it renders
`{other}{lasti.argval}{self}`. -/
def cop (operator : String) (self : Name) (other : Val) (lasti : Instruction) :
    Except String Name :=
  if lasti.opname = "COMPARE_OP" then
    if lasti.argval = operator then
      Except.ok (Name.mk (self.text ++ operator ++ strVal other))
    else
      Except.ok (Name.mk (strVal other ++ lasti.argval ++ self.text))
  else
    Except.error "AssertionError"

/-- `Name.__call__` (src lines 59-62): positional arguments are rendered by
`str`, keyword arguments as `name=value`, all joined by a single comma. -/
def Name.call (self : Name) (args : List Val) (kwargs : List (String × Val)) : Name :=
  Name.mk (self.text ++ "(" ++
    String.intercalate ","
      (args.map strVal ++ kwargs.map (fun kv => kv.1 ++ "=" ++ strVal kv.2)) ++ ")")

/-- `Name.__getitem__` (src lines 64-68): renders `{self}[{key}]`. -/
def Name.getitem (self : Name) (key : Val) : Name :=
  Name.mk (self.text ++ "[" ++ strVal key ++ "]")

/-- `Name.__invert__` (src lines 70-71): renders `~{self}`. -/
def Name.invert (self : Name) : Name :=
  Name.mk ("~" ++ self.text)

/-- `Name.__add__` (src line 74). -/
def Name.add : Name → Val → Name := lop "+"
/-- `Name.__radd__` (src line 76). -/
def Name.radd : Name → Val → Name := rop "+"
/-- `Name.__sub__` (src line 79). -/
def Name.sub : Name → Val → Name := lop "-"
/-- `Name.__rsub__` (src line 81). -/
def Name.rsub : Name → Val → Name := rop "-"
/-- `Name.__mul__` (src line 84). -/
def Name.mul : Name → Val → Name := lop "*"
/-- `Name.__rmul__` (src line 86). -/
def Name.rmul : Name → Val → Name := rop "*"
/-- `Name.__matmul__` (src line 89). -/
def Name.matmul : Name → Val → Name := lop "@"
/-- `Name.__rmatmul__` (src line 91). -/
def Name.rmatmul : Name → Val → Name := rop "@"
/-- `Name.__truediv__` (src line 94). -/
def Name.truediv : Name → Val → Name := lop "/"
/-- `Name.__rtruediv__` (src line 96). -/
def Name.rtruediv : Name → Val → Name := rop "/"
/-- `Name.__floordiv__` (src line 99). -/
def Name.floordiv : Name → Val → Name := lop "//"
/-- `Name.__rfloordiv__` (src line 101). -/
def Name.rfloordiv : Name → Val → Name := rop "//"
/-- `Name.__mod__` (src line 104). -/
def Name.mod : Name → Val → Name := lop "%"
/-- `Name.__rmod__` (src line 106). -/
def Name.rmod : Name → Val → Name := rop "%"
/-- `Name.__pow__` (src line 109). -/
def Name.pow : Name → Val → Name := lop "**"
/-- `Name.__rpow__` (src line 111). -/
def Name.rpow : Name → Val → Name := rop "**"
/-- `Name.__lshift__` (src line 114). -/
def Name.lshift : Name → Val → Name := lop "<<"
/-- `Name.__rlshift__` (src line 116). -/
def Name.rlshift : Name → Val → Name := rop "<<"
/-- `Name.__rshift__` (src line 119). -/
def Name.rshift : Name → Val → Name := lop ">>"
/-- `Name.__rrshift__` (src line 121). -/
def Name.rrshift : Name → Val → Name := rop ">>"
/-- `Name.__and__` (src line 124). -/
def Name.andOp : Name → Val → Name := lop "&"
/-- `Name.__rand__` (src line 126). -/
def Name.randOp : Name → Val → Name := rop "&"
/-- `Name.__or__` (src line 129). -/
def Name.orOp : Name → Val → Name := lop "|"
/-- `Name.__ror__` (src line 131). -/
def Name.rorOp : Name → Val → Name := rop "|"
/-- `Name.__xor__` (src line 134). -/
def Name.xorOp : Name → Val → Name := lop "^"
/-- `Name.__rxor__` (src line 136). -/
def Name.rxorOp : Name → Val → Name := rop "^"
/-- `Name.__eq__` (src line 139). -/
def Name.eq : Name → Val → Name := lop "=="
/-- `Name.__req__` (src line 141), as the source defines it. -/
def Name.req : Name → Val → Name := rop "=="
/-- `Name.__ne__` (src line 144). -/
def Name.ne : Name → Val → Name := lop "!="
/-- `Name.__rne__` (src line 146), as the source defines it. -/
def Name.rne : Name → Val → Name := rop "!="
/-- `Name.__gt__` (src line 149). -/
def Name.gt : Name → Val → Instruction → Except String Name := cop ">"
/-- `Name.__lt__` (src line 152). -/
def Name.lt : Name → Val → Instruction → Except String Name := cop "<"
/-- `Name.__ge__` (src line 155). -/
def Name.ge : Name → Val → Instruction → Except String Name := cop ">="
/-- `Name.__le__` (src line 158). -/
def Name.le : Name → Val → Instruction → Except String Name := cop "<="
/-- `Name.__getattr__` (src line 161): `lop('.')` applied to the attribute
name, which the host passes as a plain string. -/
def Name.getattr (self : Name) (attr : String) : Name :=
  lop "." self (Val.str attr)


/-- The thirteen binary arithmetic/bitwise operators the class defines both
a left and a reflected handler for (src lines 73-136). -/
inductive BOp where
  | add | sub | mul | matmul | truediv | floordiv | mod | pow
  | lshift | rshift | andB | orB | xorB
deriving DecidableEq, Repr

/-- The literal operator symbol each handler interpolates. -/
def BOp.symbol : BOp → String
  | .add => "+"
  | .sub => "-"
  | .mul => "*"
  | .matmul => "@"
  | .truediv => "/"
  | .floordiv => "//"
  | .mod => "%"
  | .pow => "**"
  | .lshift => "<<"
  | .rshift => ">>"
  | .andB => "&"
  | .orB => "|"
  | .xorB => "^"

/-- The class's method table for the left-anchored handlers
(`__add__` ... `__xor__`). -/
def Name.binL : BOp → Name → Val → Name
  | .add => Name.add
  | .sub => Name.sub
  | .mul => Name.mul
  | .matmul => Name.matmul
  | .truediv => Name.truediv
  | .floordiv => Name.floordiv
  | .mod => Name.mod
  | .pow => Name.pow
  | .lshift => Name.lshift
  | .rshift => Name.rshift
  | .andB => Name.andOp
  | .orB => Name.orOp
  | .xorB => Name.xorOp

/-- The class's method table for the reflected handlers
(`__radd__` ... `__rxor__`), which the host invokes when the token is the
right operand and the left operand's own handler did not apply. -/
def Name.binR : BOp → Name → Val → Name
  | .add => Name.radd
  | .sub => Name.rsub
  | .mul => Name.rmul
  | .matmul => Name.rmatmul
  | .truediv => Name.rtruediv
  | .floordiv => Name.rfloordiv
  | .mod => Name.rmod
  | .pow => Name.rpow
  | .lshift => Name.rlshift
  | .rshift => Name.rrshift
  | .andB => Name.randOp
  | .orB => Name.rorOp
  | .xorB => Name.rxorOp

/-- The four ordering-comparison symbols handled by `cop`. -/
def orderingOps : List String := ["<", "<=", ">", ">="]

/-- The transposed comparison the host substitutes when it flips operands
before dispatch (`a < b` retried as `b > a`, see src lines 30-36). -/
def transpose : String → String
  | "<" => ">"
  | ">" => "<"
  | "<=" => ">="
  | ">=" => "<="
  | s => s

/-- How the host hands a written ordering comparison `a op b` to a handler:
either directly (handler for `op` with operands in written order) or flipped
(handler for the transposed operator with operands swapped). -/
inductive CompareDispatch where
  | direct | flipped
deriving DecidableEq, Repr

/-- Host evaluation of the written comparison `a op b` between two tokens.
The caller's currently executing instruction is `COMPARE_OP` carrying the
written symbol `op` in both dispatch modes; what varies is which handler the
host invokes and in which operand order (src docstring lines 30-36). -/
def evalCompare (op : String) (a b : Name) : CompareDispatch → Except String Name
  | .direct => cop op a (Val.tok b) (Instruction.mk "COMPARE_OP" op)
  | .flipped => cop (transpose op) b (Val.tok a) (Instruction.mk "COMPARE_OP" op)


/-- The operation families of src lines 57-161 other than the ordering
comparisons: binary operators (left- and right-anchored), attribute access,
subscripting, invocation, and unary complement. -/
inductive Operation where
  | binOp : BOp → Val → Operation
  | rbinOp : BOp → Val → Operation
  | attrAccess : String → Operation
  | subscript : Val → Operation
  | invocation : List Val → List (String × Val) → Operation
  | invertOp : Operation

/-- Applying one of these operations to a token. The `Except` result type
mirrors the host's ability to raise; the translated method bodies
(src lines 57-161) contain no raise and no assert for these families, so
every branch is `Except.ok`. -/
def Name.applyOp (self : Name) : Operation → Except String Name
  | .binOp op v => Except.ok (Name.binL op self v)
  | .rbinOp op v => Except.ok (Name.binR op self v)
  | .attrAccess attr => Except.ok (Name.getattr self attr)
  | .subscript k => Except.ok (Name.getitem self k)
  | .invocation args kwargs => Except.ok (self.call args kwargs)
  | .invertOp => Except.ok (Name.invert self)

mutual
/-- A compiled code object as `findnames` consumes it: its `co_names` tuple
and its `co_consts` tuple (src lines 173-174). -/
inductive Code where
  | mk : List String → List Const → Code

/-- A constant in a code object's `co_consts`: either a nested code object
(a function body, selected by the `isinstance` check at src line 176) or any
other constant, which contributes no names. -/
inductive Const where
  | codeConst : Code → Const
  | otherConst : Const
end

mutual
/-- `findnames` (src lines 170-178): all names of a code object together
with the names of every code object nested in its constants, recursively,
in order of appearance. -/
def findnames : Code → List String
  | .mk ns consts => ns ++ findnamesConsts consts

/-- The `for const in code.co_consts` loop of src lines 174-177: names
contributed by the constants, skipping non-code constants. -/
def findnamesConsts : List Const → List String
  | [] => []
  | .codeConst c :: rest => findnames c ++ findnamesConsts rest
  | .otherConst :: rest => findnamesConsts rest
end

/-- Lookup in a module namespace modelled as a binding list (first binding
of a key wins; the populator only ever adds fresh keys). -/
def lookupNs : List (String × Val) → String → Option Val
  | [], _ => none
  | (k, v) :: rest, x => if k = x then some v else lookupNs rest x

/-- The population loop of src lines 180-185: for each collected name, if it
is absent from the builtin names, the current global bindings and the local
names, bind it in the globals to a fresh token seeded with that exact name;
otherwise leave the namespace untouched. -/
def populate (builtins localNames : List String) :
    List String → List (String × Val) → List (String × Val)
  | [], g => g
  | n :: rest, g =>
      populate builtins localNames rest
        (if n ∉ builtins ∧ lookupNs g n = none ∧ n ∉ localNames
         then g ++ [(n, Val.tok (Name.mk n))] else g)


/-- Modelled from the host language's data model: the reflected form of
`==` is the right operand's own `__eq__` — a method named `__req__` is not a
special method of the protocol and is never invoked by the interpreter.
Evaluating a written `v == a` whose left operand's handler does not apply
therefore calls `a.__eq__(v)` (src line 139), not the `__req__` defined at
src line 141. -/
def evalEqReflected (v : Val) (a : Name) : Name := Name.eq a v

/-- Modelled from the host language's data model: likewise the reflected form
of `!=` is the right operand's own `__ne__` (src line 144); the `__rne__` of
src line 146 is never invoked. -/
def evalNeReflected (v : Val) (a : Name) : Name := Name.ne a v

/-- The attribute names of the built-in string type that `Name` subclasses
(src line 57): its public methods and its special methods, as enumerated by
`dir(str)` in the reference host (CPython 3.8-3.12; `isascii`,
`removeprefix`, `removesuffix` and `__getstate__` are the latest additions).
Normal attribute lookup on a token resolves every one of these to the
inherited attribute, never reaching `__getattr__`. -/
def strTypeAttrs : List String :=
  ["capitalize", "casefold", "center", "count", "encode", "endswith",
   "expandtabs", "find", "format", "format_map", "index", "isalnum",
   "isalpha", "isascii", "isdecimal", "isdigit", "isidentifier", "islower",
   "isnumeric", "isprintable", "isspace", "istitle", "isupper", "join",
   "ljust", "lower", "lstrip", "maketrans", "partition", "removeprefix",
   "removesuffix", "replace", "rfind", "rindex", "rjust", "rpartition",
   "rsplit", "rstrip", "split", "splitlines", "startswith", "strip",
   "swapcase", "title", "translate", "upper", "zfill",
   "__add__", "__class__", "__contains__", "__delattr__", "__dir__",
   "__doc__", "__eq__", "__format__", "__ge__", "__getattribute__",
   "__getitem__", "__getnewargs__", "__getstate__", "__gt__", "__hash__",
   "__init__", "__init_subclass__", "__iter__", "__le__", "__len__",
   "__lt__", "__mod__", "__mul__", "__ne__", "__new__", "__reduce__",
   "__reduce_ex__", "__repr__", "__rmod__", "__rmul__", "__setattr__",
   "__sizeof__", "__str__", "__subclasshook__"]

/-- The attribute names the `Name` class itself adds beyond those of the
string type: the methods of its class body (src lines 57-161) that `str`
does not already define, and the instance/class machinery attributes a
plain-Python subclass carries. Normal lookup resolves these too. -/
def nameClassAttrs : List String :=
  ["__call__", "__getattr__", "__invert__", "__radd__", "__sub__",
   "__rsub__", "__matmul__", "__rmatmul__", "__truediv__", "__rtruediv__",
   "__floordiv__", "__rfloordiv__", "__pow__", "__rpow__", "__lshift__",
   "__rlshift__", "__rshift__", "__rrshift__", "__and__", "__rand__",
   "__or__", "__ror__", "__xor__", "__rxor__", "__req__", "__rne__",
   "__dict__", "__module__", "__weakref__"]

/-- All attribute names that normal host attribute lookup resolves on a
token without consulting `__getattr__`: the string type's attributes
together with the class's own. An attribute access reaches
`Name.__getattr__` (src line 161) exactly when its name is outside this
set. -/
def inheritedAttrs : List String := strTypeAttrs ++ nameClassAttrs

/-- Result of host attribute access on a token: either an inherited
attribute of the underlying string type (a bound method, not a token), or a
token produced by `__getattr__`. -/
inductive AttrResult where
  | inherited : AttrResult
  | tokenAttr : Name → AttrResult
deriving DecidableEq, Repr

/-- Host attribute access on a token: a name defined on the underlying
string type or on the class itself resolves to the inherited attribute;
only a name missing from both reaches `Name.__getattr__` (src line 161). -/
def getattrHost (a : Name) (attr : String) : AttrResult :=
  if attr ∈ inheritedAttrs then AttrResult.inherited
  else AttrResult.tokenAttr (Name.getattr a attr)

/-- Whether a subscript key is a slice object. -/
def Val.isSlice : Val → Bool
  | .slice _ _ _ => true
  | _ => false

theorem lookupNs_append_some (g : List (String × Val)) (p : String × Val)
    (x : String) (w : Val) (h : lookupNs g x = some w) :
    lookupNs (g ++ [p]) x = some w := by
  induction g with
  | nil => simp [lookupNs] at h
  | cons q rest ih =>
    by_cases hq : q.1 = x
    · simpa [lookupNs, hq] using h
    · simp only [lookupNs, hq, if_neg] at h ⊢
      exact ih h

theorem lookupNs_append_none (g : List (String × Val)) (n : String) (v : Val)
    (x : String) (h : lookupNs g x = none) :
    lookupNs (g ++ [(n, v)]) x = if n = x then some v else none := by
  induction g with
  | nil => simp [lookupNs]
  | cons q rest ih =>
    by_cases hq : q.1 = x
    · simp [lookupNs, hq] at h
    · simp only [lookupNs, hq, if_neg] at h ⊢
      exact ih h

theorem populate_lookup (builtins localNames : List String) :
    ∀ (names : List String) (g : List (String × Val)) (x : String),
    lookupNs (populate builtins localNames names g) x =
      if x ∈ names ∧ x ∉ builtins ∧ lookupNs g x = none ∧ x ∉ localNames
      then some (Val.tok (Name.mk x)) else lookupNs g x := by
  intro names
  induction names with
  | nil =>
    intro g x
    simp [populate]
  | cons n rest ih =>
    intro g x
    by_cases hc : n ∉ builtins ∧ lookupNs g n = none ∧ n ∉ localNames
    · rw [populate, if_pos hc, ih]
      by_cases hx : x = n
      · subst hx
        have hsome : lookupNs (g ++ [(x, Val.tok (Name.mk x))]) x
            = some (Val.tok (Name.mk x)) := by
          rw [lookupNs_append_none g x (Val.tok (Name.mk x)) x hc.2.1]
          simp
        rw [if_neg (by simp [hsome]), hsome,
          if_pos ⟨List.mem_cons_self _ _, hc.1, hc.2.1, hc.2.2⟩]
      · have hsame : lookupNs (g ++ [(n, Val.tok (Name.mk n))]) x = lookupNs g x := by
          cases hg : lookupNs g x with
          | none =>
            rw [lookupNs_append_none g n (Val.tok (Name.mk n)) x hg,
              if_neg (fun hnx => hx hnx.symm)]
          | some w => exact lookupNs_append_some g _ x w hg
        rw [hsame]
        have hmem : (x ∈ n :: rest) ↔ (x ∈ rest) := by
          simp [List.mem_cons, hx]
        by_cases hrest : x ∈ rest ∧ x ∉ builtins ∧ lookupNs g x = none ∧ x ∉ localNames
        · rw [if_pos hrest, if_pos ⟨hmem.mpr hrest.1, hrest.2⟩]
        · rw [if_neg hrest, if_neg (fun hcon => hrest ⟨hmem.mp hcon.1, hcon.2⟩)]
    · rw [populate, if_neg hc, ih]
      by_cases hx : x = n
      · subst hx
        rw [if_neg (fun hcon => hc hcon.2), if_neg (fun hcon => hc hcon.2)]
      · have hmem : (x ∈ n :: rest) ↔ (x ∈ rest) := by
          simp [List.mem_cons, hx]
        by_cases hrest : x ∈ rest ∧ x ∉ builtins ∧ lookupNs g x = none ∧ x ∉ localNames
        · rw [if_pos hrest, if_pos ⟨hmem.mpr hrest.1, hrest.2⟩]
        · rw [if_neg hrest, if_neg (fun hcon => hrest ⟨hmem.mp hcon.1, hcon.2⟩)]

/-- C1: for tokens `a`, `b` and any ordering operator `op`, evaluating the
written comparison `a op b` yields a token with text `A op B` in both host
dispatch modes: when the instruction's symbol equals the handler's nominal
operator the handler renders `{self}{op}{other}`, and when the host flipped
the operands before dispatch the handler renders
`{other}{actual_symbol}{self}`, reconstructing the written order. -/
theorem comparison_consistency (op : String) (hop : op ∈ orderingOps)
    (a b : Name) (d : CompareDispatch) :
    evalCompare op a b d = Except.ok (Name.mk (a.text ++ op ++ b.text)) := by
  fin_cases hop <;> cases d <;> rfl

theorem comparison_consistency_witness :
    "<" ∈ orderingOps ∧
      evalCompare "<" (Name.mk "a") (Name.mk "b") CompareDispatch.flipped
        = Except.ok (Name.mk "a<b") :=
  ⟨by decide, comparison_consistency "<" (by decide) (Name.mk "a") (Name.mk "b")
    CompareDispatch.flipped⟩

/-- C2: for every supported binary operator, a token as left operand renders
`{a}{op}{b}` via its left-anchored handler, and a token as right operand
whose counterpart's dispatch did not apply renders `{v}{op}{a}` via its
reflected handler; the result is textual concatenation for every operand
value, so no numeric evaluation occurs for any operand types. -/
theorem binary_operator_rendering (op : BOp) (a : Name) (b : Val) :
    (Name.binL op a b).text = a.text ++ op.symbol ++ strVal b ∧
    (Name.binR op a b).text = strVal b ++ op.symbol ++ a.text := by
  cases op <;> exact ⟨rfl, rfl⟩

/-- C3 counterexample: the claimed equivalence is false when the importing
module's globals already bind `x` to a token with text `x`: after the pass
`x` is bound to such a token even though `x` was not absent from the three
tiers (the populator left the pre-existing binding untouched). -/
theorem population_iff_ce :
    lookupNs (populate [] [] (findnames (Code.mk ["x"] []))
        [("x", Val.tok (Name.mk "x"))]) "x" = some (Val.tok (Name.mk "x")) ∧
    ¬ lookupNs [("x", Val.tok (Name.mk "x"))] "x" = none :=
  ⟨rfl, by decide⟩

/-- C3 (amended): for every name `x` collected recursively by `findnames`,
if `x` is absent from the builtin names, the global bindings and the local
names, then after the population pass `x` is bound to a token whose text is
exactly `x`; and if `x` is present in any of the three tiers, its binding is
left untouched. -/
theorem population_amended (builtins localNames : List String) (code : Code)
    (g : List (String × Val)) (x : String) (hx : x ∈ findnames code) :
    (x ∉ builtins ∧ lookupNs g x = none ∧ x ∉ localNames →
      lookupNs (populate builtins localNames (findnames code) g) x
        = some (Val.tok (Name.mk x))) ∧
    (x ∈ builtins ∨ (lookupNs g x).isSome ∨ x ∈ localNames →
      lookupNs (populate builtins localNames (findnames code) g) x
        = lookupNs g x) := by
  constructor
  · intro habs
    rw [populate_lookup, if_pos ⟨hx, habs⟩]
  · intro hpresent
    rw [populate_lookup, if_neg]
    rintro ⟨-, hb, hg, hl⟩
    rcases hpresent with h | h | h
    · exact hb h
    · rw [hg] at h
      simp at h
    · exact hl h

theorem population_amended_witness :
    "x" ∈ findnames (Code.mk ["x", "len"] []) ∧
    lookupNs (populate ["len"] [] (findnames (Code.mk ["x", "len"] [])) []) "x"
      = some (Val.tok (Name.mk "x")) :=
  ⟨by decide, (population_amended ["len"] [] (Code.mk ["x", "len"] []) [] "x"
      (by decide)).1 (by decide)⟩

/-- C4 (code bug): the source defines `__req__`/`__rne__` via `rop`, but the
host protocol's reflected form of `==` is the right operand's own `__eq__`,
so for `1 == a` the interpreter invokes `a.__eq__(1)` and the observed
result is the token `a==1`, not the `1==a` that the defined-but-never-called
`__req__` would have produced. -/
theorem reflected_equality_divergence :
    evalEqReflected (Val.int 1) (Name.mk "a") = Name.mk "a==1" ∧
    Name.req (Name.mk "a") (Val.int 1) = Name.mk "1==a" ∧
    evalNeReflected (Val.int 1) (Name.mk "a") = Name.mk "a!=1" ∧
    Name.rne (Name.mk "a") (Val.int 1) = Name.mk "1!=a" ∧
    Name.mk "a==1" ≠ Name.mk "1==a" :=
  ⟨rfl, rfl, rfl, rfl, by decide⟩

/-- C5 counterexample: `upper` is an attribute of the built-in string type
that `Name` subclasses, so `a.upper` resolves to the inherited attribute and
never reaches `__getattr__`: it is not the token `a.upper`. -/
theorem attribute_any_ce :
    getattrHost (Name.mk "a") "upper"
      ≠ AttrResult.tokenAttr (Name.mk "a.upper") := by decide

/-- C5 (amended): for every attribute name that normal lookup does not
resolve on the token — neither an attribute of the underlying string type
nor one of the class's own attributes, so that `__getattr__` is invoked —
access yields a token with text `A.attr`, and chained access `a.b.c` over
such names yields `A.b.c`. -/
theorem attribute_access_amended (a : Name) (b c : String)
    (hb : b ∉ inheritedAttrs) (hc : c ∉ inheritedAttrs) :
    getattrHost a b = AttrResult.tokenAttr (Name.mk (a.text ++ "." ++ b)) ∧
    getattrHost (Name.getattr a b) c
      = AttrResult.tokenAttr (Name.mk (a.text ++ "." ++ b ++ "." ++ c)) := by
  constructor
  · rw [getattrHost, if_neg hb]
    rfl
  · rw [getattrHost, if_neg hc]
    rfl

theorem attribute_access_amended_witness :
    "b" ∉ inheritedAttrs ∧ "c" ∉ inheritedAttrs ∧
    getattrHost (Name.mk "a") "b" = AttrResult.tokenAttr (Name.mk "a.b") ∧
    getattrHost (Name.getattr (Name.mk "a") "b") "c"
      = AttrResult.tokenAttr (Name.mk "a.b.c") :=
  ⟨by decide, by decide,
    (attribute_access_amended (Name.mk "a") "b" "c" (by decide) (by decide)).1,
    (attribute_access_amended (Name.mk "a") "b" "c" (by decide) (by decide)).2⟩

/-- C6: every arithmetic operation, attribute access, subscript, invocation
and complement on a token succeeds with a new token — no branch of any of
these translated method bodies is an error, and each is a pure function of
its arguments producing only the new value. -/
theorem token_ops_never_error (self : Name) (o : Operation) :
    ∃ t : Name, Name.applyOp self o = Except.ok t := by
  cases o <;> exact ⟨_, rfl⟩

/-- C7: if the decoded currently-executing instruction of the caller is not
a comparison, every `cop` handler fails with the assertion error rather than
returning a rendered token; when it is a comparison, the handler returns a
token without error. -/
theorem cop_assert_behavior (op : String) (self : Name) (other : Val)
    (lasti : Instruction) :
    (lasti.opname ≠ "COMPARE_OP" →
      cop op self other lasti = Except.error "AssertionError") ∧
    (lasti.opname = "COMPARE_OP" →
      ∃ t : Name, cop op self other lasti = Except.ok t) := by
  constructor
  · intro h
    simp only [cop]
    rw [if_neg h]
  · intro h
    simp only [cop]
    rw [if_pos h]
    by_cases ha : lasti.argval = op
    · rw [if_pos ha]
      exact ⟨_, rfl⟩
    · rw [if_neg ha]
      exact ⟨_, rfl⟩

theorem cop_assert_behavior_witness :
    (Instruction.mk "CALL" "<").opname ≠ "COMPARE_OP" ∧
    cop "<" (Name.mk "a") (Val.tok (Name.mk "b")) (Instruction.mk "CALL" "<")
      = Except.error "AssertionError" :=
  ⟨by decide, (cop_assert_behavior "<" (Name.mk "a") (Val.tok (Name.mk "b"))
      (Instruction.mk "CALL" "<")).1 (by decide)⟩

/-- C8: calling a token renders `{self}({args})` with positional arguments
first, keyword arguments as `name=value` after them, all joined by a single
comma and no space; in particular `a(1, 2, x=3)` yields `a(1,2,x=3)`. -/
theorem invocation_rendering :
    (∀ (a : Name) (args : List Val) (kwargs : List (String × Val)),
      (a.call args kwargs).text = a.text ++ "(" ++
        String.intercalate ","
          (args.map strVal ++ kwargs.map (fun kv => kv.1 ++ "=" ++ strVal kv.2))
        ++ ")") ∧
    ((Name.call (Name.mk "a") [Val.int 1, Val.int 2] [("x", Val.int 3)]).text
      = "a(1,2,x=3)") :=
  ⟨fun _ _ _ => rfl, rfl⟩

/-- C9: indexing a token with a non-slice key renders `{self}[{key}]`; in
particular `a[0]` yields text `a[0]`. -/
theorem indexing_rendering (a : Name) (k : Val) (h : k.isSlice = false) :
    (a.getitem k).text = a.text ++ "[" ++ strVal k ++ "]" ∧
    (Name.getitem (Name.mk "a") (Val.int 0)).text = "a[0]" :=
  ⟨rfl, rfl⟩

theorem indexing_rendering_witness :
    (Val.int 0).isSlice = false ∧
    (Name.getitem (Name.mk "a") (Val.int 0)).text
      = (Name.mk "a").text ++ "[" ++ strVal (Val.int 0) ++ "]" :=
  ⟨rfl, (indexing_rendering (Name.mk "a") (Val.int 0) rfl).1⟩

/-- C10: every non-token operand, argument or key is rendered by its plain
string conversion: a string operand loses its quotes, making `a + 'x'`
indistinguishable from addition with a token of text `x`; a slice key is
rendered in its converted `slice(lo, hi, step)` form; and call keyword
values go through the same conversion. -/
theorem str_conversion_rendering :
    (∀ (a : Name) (s : String) (op : BOp),
      Name.binL op a (Val.str s) = Name.binL op a (Val.tok (Name.mk s))) ∧
    (∀ a : Name, (Name.add a (Val.str "x")).text = a.text ++ "+" ++ "x") ∧
    ((Name.getitem (Name.mk "a") (Val.slice (some 1) (some 2) none)).text
      = "a[slice(1, 2, None)]") ∧
    (∀ s : String, strVal (Val.str s) = s) ∧
    ((Name.call (Name.mk "f") [Val.str "u"] [("x", Val.str "y")]).text
      = "f(u,x=y)") := by
  refine ⟨fun a s op => ?_, fun a => rfl, rfl, fun s => rfl, rfl⟩
  cases op <;> rfl
